import Mathlib

/-!
A shallow embedding of `src/runtime/src/validate_block/implementation.rs`:
the witness-backed storage view (`WitnessStorage`), the validation
orchestrator (`validate_block`) and the storage interposition adapters
(`ext_get_storage_into`), together with a concrete model of the external
trie library (`MemoryDB`, `read_trie_value`, `delta_trie_root`) at the
contract level the code relies on: a content-addressed store of node
blobs keyed by their hash, trie reads that fail when the witness set is
incomplete, and delta application that produces the new root from the
old root and the drained overlay without mutating the original proof
nodes.  Byte strings are `List Nat`; panics are modelled as `none`;
the hash function is a parameter everywhere, with `testHash` a concrete
executable instance used for evaluation.
-/

set_option maxRecDepth 4000

/-- Byte strings (`Vec<u8>` / `&[u8]`). -/
abbrev Bytes := List Nat

/-- `STORAGE_ROOT_LEN` from the source. -/
def STORAGE_ROOT_LEN : Nat := 32

/-- A concrete executable hash function: an accumulator folded over the
input (mod `2^64`), serialised into 8 bytes, padded with 24 bytes of `1`
so that every digest has length 32 and is never all-zero. -/
def testHash (b : Bytes) : Bytes :=
  let a := b.foldl (fun a x => (a * 257 + x + 1) % (2 ^ 64)) 7
  (List.range 8).map (fun i => a / 256 ^ i % 256) ++ List.replicate 24 1

instance {ε α : Type} [DecidableEq ε] [DecidableEq α] : DecidableEq (Except ε α) := fun x y =>
  match x, y with
  | .ok a, .ok b =>
    if h : a = b then .isTrue (by rw [h])
    else .isFalse (by intro hc; injection hc; contradiction)
  | .error a, .error b =>
    if h : a = b then .isTrue (by rw [h])
    else .isFalse (by intro hc; injection hc; contradiction)
  | .ok _, .error _ => .isFalse (by intro hc; cases hc)
  | .error _, .ok _ => .isFalse (by intro hc; cases hc)

/-- Errors of the external trie library. -/
inductive TrieError where
  | invalidStateRoot
  | incompleteDatabase
deriving DecidableEq

/-- Model of `substrate_trie::MemoryDB`: a content-addressed node store,
hash of the blob mapped to the blob bytes. -/
structure MemoryDB where
  entries : List (Bytes × Bytes)
deriving DecidableEq

/-- Look a node up by its hash. -/
def dbLookup (db : MemoryDB) (k : Bytes) : Option Bytes :=
  (db.entries.find? (fun e => e.1 == k)).map Prod.snd

/-- `MemoryDB::insert`: hash the blob and store it under its hash; when
the hash is already present only a reference count changes (the stored
bytes are the same), which the model renders as leaving the store as is. -/
def dbInsert (hash : Bytes → Bytes) (db : MemoryDB) (blob : Bytes) : MemoryDB :=
  if (dbLookup db (hash blob)).isSome then db
  else ⟨(hash blob, blob) :: db.entries⟩

/-- `MemoryDB::contains`. -/
def dbContains (db : MemoryDB) (k : Bytes) : Bool :=
  (dbLookup db k).isSome

/-- The key/value content of a trie, as an association list. -/
abbrev TrieMap := List (Bytes × Bytes)

def mapInsert (m : TrieMap) (k v : Bytes) : TrieMap :=
  (k, v) :: m.filter (fun e => !(e.1 == k))

def mapRemove (m : TrieMap) (k : Bytes) : TrieMap :=
  m.filter (fun e => !(e.1 == k))

def mapGet (m : TrieMap) (k : Bytes) : Option Bytes :=
  (m.find? (fun e => e.1 == k)).map Prod.snd

/-- Apply overlay deltas (`Some` inserts, `None` removes) to trie content. -/
def applyDeltas (m : TrieMap) (ds : List (Bytes × Option Bytes)) : TrieMap :=
  ds.foldl (fun m d =>
    match d.2 with
    | some v => mapInsert m d.1 v
    | none => mapRemove m d.1) m

/-- Length-prefixed serialisation of trie content into node bytes. -/
def encodeMap (m : TrieMap) : Bytes :=
  m.foldr (fun e acc => e.1.length :: (e.1 ++ e.2.length :: (e.2 ++ acc))) []

/-- Fuelled deserialisation of node bytes back into trie content. -/
def decodeMapFuel : Nat → Bytes → TrieMap
  | 0, _ => []
  | _ + 1, [] => []
  | f + 1, kl :: rest =>
    let k := rest.take kl
    match rest.drop kl with
    | [] => []
    | vl :: rest2 => (k, rest2.take vl) :: decodeMapFuel f (rest2.drop vl)

def decodeMap (b : Bytes) : TrieMap := decodeMapFuel b.length b

/-- Model of `substrate_trie::read_trie_value`: fails when the root node
is missing from the (necessarily incomplete) witness store, otherwise
returns the value bound to the key in the trie content, or absence. -/
def read_trie_value (db : MemoryDB) (root k : Bytes) : Except TrieError (Option Bytes) :=
  match dbLookup db root with
  | none => .error .incompleteDatabase
  | some blob => .ok (mapGet (decodeMap blob) k)

/-- Model of `substrate_trie::delta_trie_root`: opens the trie at `root`
(failing when that node is absent), applies the deltas to its content,
inserts the resulting node into the store and returns its hash as the
new root.  The original proof nodes are not mutated. -/
def delta_trie_root (hash : Bytes → Bytes) (db : MemoryDB) (root : Bytes)
    (delta : List (Bytes × Option Bytes)) : Except TrieError (Bytes × MemoryDB) :=
  match dbLookup db root with
  | none => .error .invalidStateRoot
  | some blob =>
    let nb := encodeMap (applyDeltas (decodeMap blob) delta)
    .ok (hash nb, dbInsert hash db nb)

/-- `struct WitnessStorage`: witness node store, overlay of pending
writes (`some` value or `none` tombstone per key), and the held root. -/
structure WitnessStorage where
  witness_data : MemoryDB
  overlay : List (Bytes × Option Bytes)
  storage_root : Bytes
deriving DecidableEq

/-- `HashMap::insert` on the overlay: the latest entry per key wins. -/
def overlayInsert (ov : List (Bytes × Option Bytes)) (k : Bytes) (v : Option Bytes) :
    List (Bytes × Option Bytes) :=
  (k, v) :: ov.filter (fun e => !(e.1 == k))

/-- `HashMap::get` on the overlay. -/
def overlayGet (ov : List (Bytes × Option Bytes)) (k : Bytes) : Option (Option Bytes) :=
  (ov.find? (fun e => e.1 == k)).map Prod.snd

/-- The message of the error returned by `WitnessStorage::new`. -/
def witnessMismatchMsg : String := "Witness data does not contain given storage root."

/-- The store built by `WitnessStorage::new` from the witness blobs. -/
def buildDb (hash : Bytes → Bytes) (data : List Bytes) : MemoryDB :=
  data.foldl (fun db i => dbInsert hash db i) ⟨[]⟩

/-- `WitnessStorage::new`: load every witness blob into the store, then
fail unless the claimed storage root is present. -/
def WitnessStorage.new (hash : Bytes → Bytes) (data : List Bytes) (storage_root : Bytes) :
    Except String WitnessStorage :=
  let db := buildDb hash data
  if !(dbContains db storage_root) then .error witnessMismatchMsg
  else .ok ⟨db, [], storage_root⟩

/-- `WitnessStorage::get`: overlay entry (value or tombstone) decides
when present; otherwise the trie is read, with read failure collapsed to
absence (`.ok()` then `unwrap_or(None)` in the source). -/
def WitnessStorage.get (s : WitnessStorage) (key : Bytes) : Option Bytes :=
  match overlayGet s.overlay key with
  | some entry => entry
  | none =>
    match read_trie_value s.witness_data s.storage_root key with
    | .ok v => v
    | .error _ => none

/-- `WitnessStorage::insert`: record the value in the overlay only. -/
def WitnessStorage.insert (s : WitnessStorage) (key value : Bytes) : WitnessStorage :=
  { s with overlay := overlayInsert s.overlay key (some value) }

/-- `WitnessStorage::remove`: record a tombstone in the overlay only. -/
def WitnessStorage.remove (s : WitnessStorage) (key : Bytes) : WitnessStorage :=
  { s with overlay := overlayInsert s.overlay key none }

/-- The `assert!` guard in `storage_root`: the source checks
`root.as_ref().len() <= STORAGE_ROOT_LEN`. -/
def rootLenAssertOk (n : Nat) : Bool := decide (n ≤ STORAGE_ROOT_LEN)

/-- `WitnessStorage::storage_root`: drain the overlay into
`delta_trie_root` over the held root.  On trie failure return the
all-zero sentinel; on success run the length `assert!` and the
`copy_from_slice` into a 32-byte array, either of which panics (`none`)
on a digest that does not fit exactly.  The held root is not updated. -/
def WitnessStorage.storageRoot (hash : Bytes → Bytes) (s : WitnessStorage) :
    Option (Bytes × WitnessStorage) :=
  match delta_trie_root hash s.witness_data s.storage_root s.overlay with
  | .error _ => some (List.replicate STORAGE_ROOT_LEN 0, { s with overlay := [] })
  | .ok (root, db) =>
    if rootLenAssertOk root.length then
      if root.length = STORAGE_ROOT_LEN then
        some (root, { s with overlay := [], witness_data := db })
      else none
    else none

/-- The `u32::max_value()` sentinel. -/
def u32max : Nat := 2 ^ 32 - 1

/-- `ext_get_storage_into`: for a present value, slice it at the offset
(panicking when the offset exceeds the value length), copy
`min(buffer length, remaining bytes)` bytes into the destination buffer
and return that count; for an absent key return the `u32` max sentinel
with the buffer untouched. -/
def ext_get_storage_into (s : WitnessStorage) (key dest : Bytes) (offset : Nat) :
    Option (Nat × Bytes) :=
  match s.get key with
  | some value =>
    if offset ≤ value.length then
      let sliced := value.drop offset
      let len := min dest.length sliced.length
      some (len, sliced.take len ++ dest.drop len)
    else none
  | none => some (u32max, dest)

/-- Block header: the declared parent hash plus opaque remaining fields. -/
structure Header where
  parent_hash : Bytes
  payload : Bytes
deriving DecidableEq

/-- Serialisation of a header, input of the header hash. -/
def encodeHeader (h : Header) : Bytes :=
  h.parent_hash.length :: (h.parent_hash ++ h.payload)

/-- `Header::hash()`. -/
def headerHash (hash : Bytes → Bytes) (h : Header) : Bytes :=
  hash (encodeHeader h)

/-- `ParachainBlockData`: header, extrinsics, witness blobs, claimed root. -/
structure ParachainBlockData where
  header : Header
  extrinsics : List Bytes
  witness_data : List Bytes
  witness_data_storage_root : Bytes
deriving DecidableEq

/-- `ValidationParams`, with decoding of each payload modelled by an
`Option` (`none` is an undecodable payload). -/
structure ValidationParams where
  block_data : Option ParachainBlockData
  parent_head : Option Header
deriving DecidableEq

/-- The process-wide bindings: the `STORAGE` slot and a token standing
for which implementations the six storage entry points are bound to. -/
structure Globals where
  storage : Option WitnessStorage
  impls : Nat
deriving DecidableEq

/-- Token for the six replacement adapter implementations. -/
def replacedImplementations : Nat := 1

/-- Observable milestones of one `validate_block` run. -/
inductive VEvent where
  | decodedBlockData
  | decodedParentHead
  | linkageChecked
  | viewConstructed
  | installed
  | executed
  | restored
deriving DecidableEq

/-- `validate_block`: decode both payloads, check the parent linkage,
construct the witness view, install it in the global slot together with
the six replacement implementations, run the execution routine (a black
box mutating the active view through the six operations), and on scope
exit drop the guard, which restores the captured implementations; the
`STORAGE` slot itself is only ever assigned, never restored.  A panic
(`expect`/`assert!`) aborts the run: the trace stops and no final
globals exist. -/
def validate_block (hash : Bytes → Bytes) (exec : WitnessStorage → WitnessStorage)
    (g : Globals) (p : ValidationParams) : List VEvent × Option Globals :=
  match p.block_data with
  | none => ([], none)
  | some bd =>
    match p.parent_head with
    | none => ([.decodedBlockData], none)
    | some parent_head =>
      if headerHash hash parent_head == bd.header.parent_hash then
        match WitnessStorage.new hash bd.witness_data bd.witness_data_storage_root with
        | .error _ => ([.decodedBlockData, .decodedParentHead, .linkageChecked], none)
        | .ok storage =>
          let prior := g.impls
          let g1 : Globals := { storage := some storage, impls := replacedImplementations }
          let g2 : Globals := { g1 with storage := g1.storage.map exec }
          let g3 : Globals := { g2 with impls := prior }
          ([.decodedBlockData, .decodedParentHead, .linkageChecked, .viewConstructed,
            .installed, .executed, .restored], some g3)
      else ([.decodedBlockData, .decodedParentHead], none)

/-- Inserting a blob never disturbs the binding of a hash that is
already present in the store. -/
theorem dbLookup_dbInsert (hash : Bytes → Bytes) (db : MemoryDB) (blob k b : Bytes)
    (h : dbLookup db k = some b) :
    dbLookup (dbInsert hash db blob) k = some b := by
  unfold dbInsert
  split
  · exact h
  · rename_i hnotin
    have hnone : dbLookup db (hash blob) = none :=
      Option.not_isSome_iff_eq_none.mp hnotin
    by_cases hk : hash blob = k
    · rw [hk] at hnone; rw [hnone] at h; cases h
    · unfold dbLookup at h ⊢
      rw [List.find?_cons_of_neg]
      · exact h
      · simp [hk]

/-- `testHash` digests end in 24 bytes of `1`, so no digest is the
all-zero sentinel. -/
theorem testHash_ne_zeroRoot (b : Bytes) :
    testHash b ≠ List.replicate STORAGE_ROOT_LEN 0 := by
  intro h
  have h8 : (testHash b).drop 8 = List.replicate 24 1 := by
    have hsplit : testHash b =
        (List.range 8).map
          (fun i => (b.foldl (fun a x => (a * 257 + x + 1) % (2 ^ 64)) 7) / 256 ^ i % 256)
          ++ List.replicate 24 1 := rfl
    rw [hsplit, List.drop_left' (by simp)]
  rw [h] at h8
  exact absurd h8 (by decide)

/-- A storage view with a tombstone at `[9]` and a value at `[8]`. -/
def wsC4 : WitnessStorage := ⟨⟨[]⟩, [([9], none), ([8], some [5])], [0]⟩

/-- Claim C4: an overlay entry fully determines `get` — a value just
written by `insert` is returned (with the trie store untouched), a
tombstone written by `remove` reads as absent, and a key without an
overlay entry is delegated to the witness-trie lookup with lookup
failure collapsed to absence. -/
theorem c4_get_overlay_semantics (s : WitnessStorage) (k v k' : Bytes) :
    (s.insert k v).get k = some v
    ∧ ((s.insert k v).witness_data = s.witness_data
        ∧ (s.insert k v).storage_root = s.storage_root)
    ∧ (s.remove k).get k = none
    ∧ (overlayGet s.overlay k' = some none → s.get k' = none)
    ∧ (∀ w, overlayGet s.overlay k' = some (some w) → s.get k' = some w)
    ∧ (overlayGet s.overlay k' = none →
        s.get k' = match read_trie_value s.witness_data s.storage_root k' with
                   | .ok v => v
                   | .error _ => none) := by
  refine ⟨?_, ⟨rfl, rfl⟩, ?_, ?_, ?_, ?_⟩
  · simp [WitnessStorage.get, WitnessStorage.insert, overlayGet, overlayInsert, List.find?_cons]
  · simp [WitnessStorage.get, WitnessStorage.remove, overlayGet, overlayInsert, List.find?_cons]
  · intro hov; simp [WitnessStorage.get, hov]
  · intro w hov; simp [WitnessStorage.get, hov]
  · intro hov; simp [WitnessStorage.get, hov]

/-- Concrete instantiation of the C4 theorem: a fresh insert is read
back, a tombstoned key and a key absent everywhere read as absent, and
an overlay value shadows everything. -/
theorem c4_witness :
    (wsC4.insert [1] [2]).get [1] = some [2]
    ∧ wsC4.get [9] = none
    ∧ wsC4.get [8] = some [5]
    ∧ wsC4.get [3] = none := by
  refine ⟨(c4_get_overlay_semantics wsC4 [1] [2] [9]).1, ?_, ?_, ?_⟩
  · exact (c4_get_overlay_semantics wsC4 [1] [2] [9]).2.2.2.1 (by decide)
  · exact (c4_get_overlay_semantics wsC4 [1] [2] [8]).2.2.2.2.1 [5] (by decide)
  · exact ((c4_get_overlay_semantics wsC4 [1] [2] [3]).2.2.2.2.2 (by decide)).trans (by decide)

/-- Claim C5: when delta application fails, `storage_root` returns the
all-zero 32-byte sentinel (and the drained state) instead of an error;
and under a hash function that never produces the all-zero digest, a
successful delta application never returns the sentinel. -/
theorem c5_zero_sentinel (hash : Bytes → Bytes) (s : WitnessStorage) :
    (∀ e, delta_trie_root hash s.witness_data s.storage_root s.overlay = .error e →
      WitnessStorage.storageRoot hash s
        = some (List.replicate STORAGE_ROOT_LEN 0, { s with overlay := [] }))
    ∧ ((∀ b, hash b ≠ List.replicate STORAGE_ROOT_LEN 0) →
       ∀ rt s', WitnessStorage.storageRoot hash s = some (rt, s') →
         (∃ r db, delta_trie_root hash s.witness_data s.storage_root s.overlay = .ok (r, db)) →
         rt ≠ List.replicate STORAGE_ROOT_LEN 0) := by
  constructor
  · intro e he
    simp [WitnessStorage.storageRoot, he]
  · intro hns rt s' hsr hex
    obtain ⟨r, db, hdelta⟩ := hex
    have hdelta' := hdelta
    unfold delta_trie_root at hdelta'
    cases hdb : dbLookup s.witness_data s.storage_root with
    | none => rw [hdb] at hdelta'; exact absurd hdelta' (by simp)
    | some blob =>
      rw [hdb] at hdelta'
      simp only [Except.ok.injEq, Prod.mk.injEq] at hdelta'
      obtain ⟨hr, -⟩ := hdelta'
      simp only [WitnessStorage.storageRoot, hdelta] at hsr
      by_cases hA : rootLenAssertOk r.length = true
      · rw [if_pos hA] at hsr
        by_cases hB : r.length = STORAGE_ROOT_LEN
        · rw [if_pos hB] at hsr
          simp only [Option.some.injEq, Prod.mk.injEq] at hsr
          obtain ⟨hrt, -⟩ := hsr
          rw [← hrt, ← hr]
          exact hns _
        · rw [if_neg hB] at hsr; cases hsr
      · rw [if_neg hA] at hsr; cases hsr

/-- A view whose held root is absent from the store: delta application
fails on it. -/
def sBadC5 : WitnessStorage := ⟨⟨[]⟩, [], [3]⟩

/-- A view whose held root binds a trie with content `[1] ↦ [2]`. -/
def sGoodC5 : WitnessStorage := ⟨⟨[([9], encodeMap [([1], [2])])]⟩, [], [9]⟩

/-- The root `storage_root` computes for `sGoodC5`. -/
def rtGoodC5 : Bytes := testHash (encodeMap [([1], [2])])

/-- The store after the `sGoodC5` delta application. -/
def dbGoodC5 : MemoryDB := ⟨[(rtGoodC5, encodeMap [([1], [2])]), ([9], encodeMap [([1], [2])])]⟩

/-- Concrete instantiation of the C5 theorem: the failing view yields
the sentinel, the succeeding view yields a non-sentinel root. -/
theorem c5_witness :
    WitnessStorage.storageRoot testHash sBadC5
      = some (List.replicate STORAGE_ROOT_LEN 0, sBadC5)
    ∧ rtGoodC5 ≠ List.replicate STORAGE_ROOT_LEN 0 := by
  constructor
  · exact (c5_zero_sentinel testHash sBadC5).1 .invalidStateRoot (by decide)
  · exact (c5_zero_sentinel testHash sGoodC5).2 testHash_ne_zeroRoot rtGoodC5
      ⟨dbGoodC5, [], [9]⟩ (by decide) ⟨rtGoodC5, dbGoodC5, by decide⟩

/-- Claim C6: even when delta application fails, the overlay has been
drained — the sentinel result carries a state with an empty overlay, so
a later `storage_root` call starts from no pending writes. -/
theorem c6_overlay_drained_on_failure (hash : Bytes → Bytes) (s : WitnessStorage)
    (e : TrieError)
    (h : delta_trie_root hash s.witness_data s.storage_root s.overlay = .error e) :
    ∃ s', WitnessStorage.storageRoot hash s
        = some (List.replicate STORAGE_ROOT_LEN 0, s') ∧ s'.overlay = [] := by
  refine ⟨{ s with overlay := [] }, ?_, rfl⟩
  simp [WitnessStorage.storageRoot, h]

/-- A failing view carrying pending writes. -/
def sBadC6 : WitnessStorage := ⟨⟨[]⟩, [([2], some [3])], [4]⟩

/-- Concrete instantiation of the C6 theorem at a view with a non-empty
overlay and an absent root. -/
theorem c6_witness :
    ∃ s', WitnessStorage.storageRoot testHash sBadC6
        = some (List.replicate STORAGE_ROOT_LEN 0, s') ∧ s'.overlay = [] :=
  c6_overlay_drained_on_failure testHash sBadC6 .invalidStateRoot (by decide)

/-- Claim C7, counterexample: the length guard in `storage_root` is the
source's `assert!(root.as_ref().len() <= STORAGE_ROOT_LEN)`; it passes a
16-byte digest, so the digest length is not asserted to be exactly 32. -/
theorem c7_counterexample : rootLenAssertOk 16 = true ∧ ¬(16 = 32) := by decide

/-- Claim C7, amended: every value `storage_root` returns is exactly 32
bytes; after a successful delta application, a digest whose length is
not 32 makes `storage_root` abort (the `assert!` admits any length up
to 32 and the `copy_from_slice` aborts on anything but exactly 32),
while a 32-byte digest is returned as is. -/
theorem c7_root_size_abort (hash : Bytes → Bytes) (s : WitnessStorage) :
    (∀ rt s', WitnessStorage.storageRoot hash s = some (rt, s')
        → rt.length = STORAGE_ROOT_LEN)
    ∧ (∀ r db, delta_trie_root hash s.witness_data s.storage_root s.overlay = .ok (r, db) →
        ((r.length ≠ STORAGE_ROOT_LEN → WitnessStorage.storageRoot hash s = none)
         ∧ (r.length = STORAGE_ROOT_LEN →
            WitnessStorage.storageRoot hash s
              = some (r, { s with overlay := [], witness_data := db })))) := by
  constructor
  · intro rt s' h
    cases hd : delta_trie_root hash s.witness_data s.storage_root s.overlay with
    | error e =>
      simp only [WitnessStorage.storageRoot, hd, Option.some.injEq, Prod.mk.injEq] at h
      obtain ⟨h1, -⟩ := h
      rw [← h1]
      simp
    | ok p =>
      obtain ⟨r, db⟩ := p
      simp only [WitnessStorage.storageRoot, hd] at h
      by_cases hA : rootLenAssertOk r.length = true
      · rw [if_pos hA] at h
        by_cases hB : r.length = STORAGE_ROOT_LEN
        · rw [if_pos hB] at h
          simp only [Option.some.injEq, Prod.mk.injEq] at h
          obtain ⟨h1, -⟩ := h
          rw [← h1]; exact hB
        · rw [if_neg hB] at h; cases h
      · rw [if_neg hA] at h; cases h
  · intro r db hd
    constructor
    · intro hne
      simp only [WitnessStorage.storageRoot, hd]
      by_cases hA : rootLenAssertOk r.length = true
      · rw [if_pos hA, if_neg hne]
      · rw [if_neg hA]
    · intro heq
      have hA : rootLenAssertOk r.length = true := by
        simp [rootLenAssertOk, heq, STORAGE_ROOT_LEN]
      simp only [WitnessStorage.storageRoot, hd]
      rw [if_pos hA, if_pos heq]

/-- A hash function with 3-byte digests, standing in for a misconfigured
hash algorithm. -/
def hashShort : Bytes → Bytes := fun _ => [1, 2, 3]

/-- A view whose root is present, so delta application succeeds under
`hashShort`. -/
def sShortC7 : WitnessStorage := ⟨⟨[([9], [])]⟩, [], [9]⟩

/-- The store after the `sShortC7` delta application under `hashShort`. -/
def dbShortC7 : MemoryDB := ⟨[([1, 2, 3], []), ([9], [])]⟩

/-- Concrete instantiation of the amended C7 theorem: a successfully
computed 3-byte digest makes `storage_root` abort. -/
theorem c7_witness : WitnessStorage.storageRoot hashShort sShortC7 = none :=
  ((c7_root_size_abort hashShort sShortC7).2 [1, 2, 3] dbShortC7 (by decide)).1 (by decide)

/-- Claim C9, amended: for a present value and an offset that does not
exceed the value length, `ext_get_storage_into` copies
`min(buffer length, bytes past the offset)` bytes into the front of the
destination buffer and returns that count; for an absent key it copies
nothing and returns the `u32` max sentinel. -/
theorem c9_get_into_buffer (s : WitnessStorage) (k dest : Bytes) (off : Nat) :
    (∀ v, s.get k = some v → off ≤ v.length →
      ext_get_storage_into s k dest off =
        some (min dest.length (v.length - off),
          (v.drop off).take (min dest.length (v.length - off))
            ++ dest.drop (min dest.length (v.length - off))))
    ∧ (s.get k = none → ext_get_storage_into s k dest off = some (u32max, dest)) := by
  constructor
  · intro v hv hoff
    simp [ext_get_storage_into, hv, hoff]
  · intro hv
    simp [ext_get_storage_into, hv]

/-- A view holding the one-byte value `[10, 20, 30]` at key `[1]`. -/
def wsC9 : WitnessStorage := ⟨⟨[]⟩, [([1], some [10, 20, 30])], [0]⟩

/-- Concrete instantiation of the amended C9 theorem: two bytes past
offset 1 are copied into a 2-byte buffer, and an absent key yields the
sentinel with the buffer untouched. -/
theorem c9_witness :
    ext_get_storage_into wsC9 [1] [0, 0] 1 = some (2, [20, 30])
    ∧ ext_get_storage_into wsC9 [2] [0, 0] 1 = some (u32max, [0, 0]) := by
  constructor
  · exact ((c9_get_into_buffer wsC9 [1] [0, 0] 1).1 [10, 20, 30]
      (by decide) (by decide)).trans (by decide)
  · exact (c9_get_into_buffer wsC9 [2] [0, 0] 1).2 (by decide)

/-- A view holding the one-byte value `[7]` at key `[5]`. -/
def wsC9bad : WitnessStorage := ⟨⟨[]⟩, [([5], some [7])], [0]⟩

/-- Claim C9, counterexample: key `[5]` is present with a value of
length 1, yet with offset 2 the operation aborts (`none`) instead of
copying zero bytes and returning a count. -/
theorem c9_counterexample :
    wsC9bad.get [5] = some [7]
    ∧ ext_get_storage_into wsC9bad [5] [8, 8, 8, 8] 2 = none := by decide

/-- A view holding the two-byte value `[2, 3]` at key `[1]`. -/
def wsC10 : WitnessStorage := ⟨⟨[]⟩, [([1], some [2, 3])], [0]⟩

/-- Claim C10: for a present key whose value has length 2 and an offset
of 5, slicing the value at the offset panics, so `ext_get_storage_into`
aborts rather than returning. -/
theorem c10_offset_past_length_aborts :
    wsC10.get [1] = some [2, 3]
    ∧ ([2, 3] : Bytes).length < 5
    ∧ ext_get_storage_into wsC10 [1] [0, 0] 5 = none := by decide

/-- Claim C3: construction of the witness view succeeds exactly when
the store built from the bundle contains the claimed root; on success
the view starts with an empty overlay over that store and root, on
failure the witness-mismatch error is returned and, inside
`validate_block`, the run aborts before installation and before the
execution routine is invoked. -/
theorem c3_construction_iff_root_present (hash : Bytes → Bytes) (data : List Bytes)
    (root : Bytes) :
    ((∃ ws, WitnessStorage.new hash data root = .ok ws)
        ↔ dbContains (buildDb hash data) root = true)
    ∧ (∀ ws, WitnessStorage.new hash data root = .ok ws → ws = ⟨buildDb hash data, [], root⟩)
    ∧ (dbContains (buildDb hash data) root = false →
        WitnessStorage.new hash data root = .error witnessMismatchMsg)
    ∧ (∀ exec g bd ph, bd.witness_data = data → bd.witness_data_storage_root = root →
        dbContains (buildDb hash data) root = false →
        (headerHash hash ph == bd.header.parent_hash) = true →
        validate_block hash exec g ⟨some bd, some ph⟩
            = ([.decodedBlockData, .decodedParentHead, .linkageChecked], none)
          ∧ VEvent.executed ∉ (validate_block hash exec g ⟨some bd, some ph⟩).1
          ∧ VEvent.installed ∉ (validate_block hash exec g ⟨some bd, some ph⟩).1) := by
  refine ⟨?_, ?_, ?_, ?_⟩
  · by_cases hc : dbContains (buildDb hash data) root = true
    · exact ⟨fun _ => hc,
        fun _ => ⟨⟨buildDb hash data, [], root⟩, by simp [WitnessStorage.new, hc]⟩⟩
    · have hcf : dbContains (buildDb hash data) root = false := by simpa using hc
      constructor
      · rintro ⟨ws, hws⟩
        simp [WitnessStorage.new, hcf] at hws
      · intro hc'; exact absurd hc' hc
  · intro ws hws
    by_cases hc : dbContains (buildDb hash data) root = true
    · simp only [WitnessStorage.new, hc, Bool.not_true, Bool.false_eq_true, if_false,
        Except.ok.injEq] at hws
      exact hws.symm
    · have hcf : dbContains (buildDb hash data) root = false := by simpa using hc
      simp [WitnessStorage.new, hcf] at hws
  · intro hcf
    simp [WitnessStorage.new, hcf]
  · intro exec g bd ph h1 h2 hcf hlink
    have hnew : WitnessStorage.new hash bd.witness_data bd.witness_data_storage_root
        = .error witnessMismatchMsg := by
      rw [h1, h2]; simp [WitnessStorage.new, hcf]
    have hvb : validate_block hash exec g ⟨some bd, some ph⟩
        = ([.decodedBlockData, .decodedParentHead, .linkageChecked], none) := by
      simp [validate_block, hlink, hnew]
    exact ⟨hvb, by rw [hvb]; decide, by rw [hvb]; decide⟩

/-- Parent header of the C3 scenario. -/
def phC3 : Header := ⟨[4], [5]⟩

/-- Block data with an empty witness bundle and a root absent from it. -/
def bdC3 : ParachainBlockData := ⟨⟨headerHash testHash phC3, []⟩, [], [], [1]⟩

/-- Prior globals of the C3 scenario. -/
def gC3 : Globals := ⟨none, 7⟩

/-- Concrete instantiation of the C3 theorem: an empty bundle never
contains the root `[1]`, so construction fails with the mismatch error
and a validation call on that bundle aborts before execution. -/
theorem c3_witness :
    WitnessStorage.new testHash [] [1] = .error witnessMismatchMsg
    ∧ validate_block testHash id gC3 ⟨some bdC3, some phC3⟩
        = ([.decodedBlockData, .decodedParentHead, .linkageChecked], none) := by
  constructor
  · exact (c3_construction_iff_root_present testHash [] [1]).2.2.1 (by decide)
  · exact ((c3_construction_iff_root_present testHash [] [1]).2.2.2 id gC3 bdC3 phC3
      rfl rfl (by decide) (by decide)).1

/-- Claim C8: a run whose declared parent hash differs from the hash of
the decoded parent header aborts right after the linkage check, with no
view construction, no installation and no execution in its trace. -/
theorem c8_parent_hash_mismatch_aborts (hash : Bytes → Bytes)
    (exec : WitnessStorage → WitnessStorage) (g : Globals)
    (bd : ParachainBlockData) (ph : Header)
    (h : headerHash hash ph ≠ bd.header.parent_hash) :
    validate_block hash exec g ⟨some bd, some ph⟩
        = ([.decodedBlockData, .decodedParentHead], none)
    ∧ VEvent.viewConstructed ∉ (validate_block hash exec g ⟨some bd, some ph⟩).1
    ∧ VEvent.installed ∉ (validate_block hash exec g ⟨some bd, some ph⟩).1
    ∧ VEvent.executed ∉ (validate_block hash exec g ⟨some bd, some ph⟩).1 := by
  have hb : (headerHash hash ph == bd.header.parent_hash) = false := by
    simpa using h
  have hvb : validate_block hash exec g ⟨some bd, some ph⟩
      = ([.decodedBlockData, .decodedParentHead], none) := by
    simp [validate_block, hb]
  refine ⟨hvb, ?_, ?_, ?_⟩ <;> rw [hvb] <;> decide

/-- Parent header of the C8 scenario. -/
def phC8 : Header := ⟨[1], [2]⟩

/-- Block data whose declared parent hash `[0]` cannot be a digest. -/
def bdC8 : ParachainBlockData := ⟨⟨[0], []⟩, [], [], [0]⟩

/-- Prior globals of the C8 scenario. -/
def gC8 : Globals := ⟨none, 2⟩

/-- Concrete instantiation of the C8 theorem. -/
theorem c8_witness :
    validate_block testHash id gC8 ⟨some bdC8, some phC8⟩
      = ([.decodedBlockData, .decodedParentHead], none) :=
  (c8_parent_hash_mismatch_aborts testHash id gC8 bdC8 phC8 (by decide)).1

/-- Witness blob of the C2 scenario: a trie binding `[97] ↦ [49]`. -/
def blobC2 : Bytes := encodeMap [([97], [49])]

/-- The root of the C2 witness trie. -/
def rootC2 : Bytes := testHash blobC2

/-- Parent header of the C2 scenario. -/
def phC2 : Header := ⟨[7], [8]⟩

/-- Well-formed block data for the C2 scenario. -/
def bdC2 : ParachainBlockData := ⟨⟨headerHash testHash phC2, []⟩, [], [blobC2], rootC2⟩

/-- Prior globals of the C2 scenario: empty slot, implementations `5`. -/
def gC2 : Globals := ⟨none, 5⟩

/-- The witness view `validate_block` constructs in the C2 scenario. -/
def wsC2 : WitnessStorage := ⟨⟨[(rootC2, blobC2)]⟩, [], rootC2⟩

/-- The full event trace of a successful validation call. -/
def fullTraceC2 : List VEvent :=
  [.decodedBlockData, .decodedParentHead, .linkageChecked, .viewConstructed,
   .installed, .executed, .restored]

/-- Claim C2, counterexample: after a successful `validate_block` run
the global slot still holds exactly the witness view constructed for
that call — the slot is assigned at installation but never restored. -/
theorem c2_counterexample :
    WitnessStorage.new testHash bdC2.witness_data bdC2.witness_data_storage_root = .ok wsC2
    ∧ validate_block testHash id gC2 ⟨some bdC2, some phC2⟩
        = (fullTraceC2, some ⟨some wsC2, 5⟩) := by decide

/-- Claim C2, amended: on every normal return of `validate_block` the
six operation bindings are restored to the captured prior ones, while
the global storage slot is left holding the witness view constructed
for the call (as mutated by the execution routine), not restored. -/
theorem c2_impls_restored_slot_retained (hash : Bytes → Bytes)
    (exec : WitnessStorage → WitnessStorage) (g : Globals) (p : ValidationParams)
    (tr : List VEvent) (g' : Globals)
    (h : validate_block hash exec g p = (tr, some g')) :
    g'.impls = g.impls
    ∧ ∃ bd ws, p.block_data = some bd
        ∧ WitnessStorage.new hash bd.witness_data bd.witness_data_storage_root = .ok ws
        ∧ g'.storage = some (exec ws) := by
  rcases p with ⟨bdo, pho⟩
  cases bdo with
  | none => simp [validate_block] at h
  | some bd =>
    cases pho with
    | none => simp [validate_block] at h
    | some ph =>
      by_cases hl : (headerHash hash ph == bd.header.parent_hash) = true
      · cases hnew : WitnessStorage.new hash bd.witness_data bd.witness_data_storage_root with
        | error e => simp [validate_block, hl, hnew] at h
        | ok ws =>
          simp only [validate_block, hl, hnew, if_true, Option.map_some', Prod.mk.injEq,
            Option.some.injEq] at h
          obtain ⟨-, h2⟩ := h
          rw [← h2]
          exact ⟨rfl, bd, ws, rfl, hnew, rfl⟩
      · simp [validate_block, hl] at h

/-- Concrete instantiation of the amended C2 theorem on the C2 run. -/
theorem c2_witness :
    (⟨some wsC2, 5⟩ : Globals).impls = gC2.impls
    ∧ ∃ bd ws, (⟨some bdC2, some phC2⟩ : ValidationParams).block_data = some bd
        ∧ WitnessStorage.new testHash bd.witness_data bd.witness_data_storage_root = .ok ws
        ∧ (⟨some wsC2, 5⟩ : Globals).storage = some (id ws) :=
  c2_impls_restored_slot_retained testHash id gC2 ⟨some bdC2, some phC2⟩ fullTraceC2
    ⟨some wsC2, 5⟩ (by decide)

/-- Witness blob of the C1 scenario: a trie binding `[97] ↦ [49]`. -/
def blobC1 : Bytes := encodeMap [([97], [49])]

/-- The root of the C1 witness trie. -/
def rootC1 : Bytes := testHash blobC1

/-- The freshly constructed C1 view, empty overlay. -/
def wsC1base : WitnessStorage := ⟨⟨[(rootC1, blobC1)]⟩, [], rootC1⟩

/-- The C1 view after one pending write `[97] ↦ [50]`. -/
def wsC1 : WitnessStorage := wsC1base.insert [97] [50]

/-- Two consecutive `storage_root` calls with no writes in between;
`some b` reports whether the two returned byte strings are equal. -/
def twoRoots (hash : Bytes → Bytes) (s : WitnessStorage) : Option Bool :=
  match WitnessStorage.storageRoot hash s with
  | some (r1, s1) =>
    match WitnessStorage.storageRoot hash s1 with
    | some (r2, _) => some (r1 == r2)
    | none => none
  | none => none

/-- Claim C1, counterexample: on a view holding one pending write, the
first `storage_root` call applies the write to the base root while the
second recomputes from the unchanged base root with the drained
overlay, so the two calls return different bytes. -/
theorem c1_counterexample :
    WitnessStorage.new testHash [blobC1] rootC1 = .ok wsC1base
    ∧ twoRoots testHash wsC1 = some false := by decide

/-- Claim C1, amended: when the overlay is already empty at the first
call, two consecutive `storage_root` calls return identical bytes. -/
theorem c1_empty_overlay_idempotent (hash : Bytes → Bytes) (s : WitnessStorage)
    (r1 : Bytes) (s1 : WitnessStorage)
    (hov : s.overlay = [])
    (h : WitnessStorage.storageRoot hash s = some (r1, s1)) :
    ∃ s2, WitnessStorage.storageRoot hash s1 = some (r1, s2) := by
  cases hdb : dbLookup s.witness_data s.storage_root with
  | none =>
    have hdelta : delta_trie_root hash s.witness_data s.storage_root s.overlay
        = .error .invalidStateRoot := by
      simp [delta_trie_root, hdb]
    simp only [WitnessStorage.storageRoot, hdelta, Option.some.injEq, Prod.mk.injEq] at h
    obtain ⟨hr, hs⟩ := h
    have hdelta2 : delta_trie_root hash s1.witness_data s1.storage_root s1.overlay
        = .error .invalidStateRoot := by
      rw [← hs]; simp [delta_trie_root, hdb]
    refine ⟨{ s1 with overlay := [] }, ?_⟩
    simp only [WitnessStorage.storageRoot, hdelta2]
    rw [hr]
  | some blob =>
    have hdelta : delta_trie_root hash s.witness_data s.storage_root s.overlay
        = .ok (hash (encodeMap (decodeMap blob)),
               dbInsert hash s.witness_data (encodeMap (decodeMap blob))) := by
      simp [delta_trie_root, hdb, hov, applyDeltas]
    simp only [WitnessStorage.storageRoot, hdelta] at h
    by_cases hA : rootLenAssertOk (hash (encodeMap (decodeMap blob))).length = true
    · rw [if_pos hA] at h
      by_cases hB : (hash (encodeMap (decodeMap blob))).length = STORAGE_ROOT_LEN
      · rw [if_pos hB] at h
        simp only [Option.some.injEq, Prod.mk.injEq] at h
        obtain ⟨hr, hs⟩ := h
        have hdb1 : dbLookup s1.witness_data s1.storage_root = some blob := by
          rw [← hs]
          exact dbLookup_dbInsert hash s.witness_data (encodeMap (decodeMap blob))
            s.storage_root blob hdb
        have hov1 : s1.overlay = [] := by rw [← hs]
        have hdelta2 : delta_trie_root hash s1.witness_data s1.storage_root s1.overlay
            = .ok (hash (encodeMap (decodeMap blob)),
                   dbInsert hash s1.witness_data (encodeMap (decodeMap blob))) := by
          simp [delta_trie_root, hdb1, hov1, applyDeltas]
        refine ⟨⟨dbInsert hash s1.witness_data (encodeMap (decodeMap blob)), [],
          s1.storage_root⟩, ?_⟩
        simp only [WitnessStorage.storageRoot, hdelta2]
        rw [if_pos hA, if_pos hB, hr]
      · rw [if_neg hB] at h; cases h
    · rw [if_neg hA] at h; cases h

/-- Concrete instantiation of the amended C1 theorem: on the C1 view
with empty overlay both calls return the base root. -/
theorem c1_witness :
    ∃ s2, WitnessStorage.storageRoot testHash wsC1base = some (rootC1, s2) :=
  c1_empty_overlay_idempotent testHash wsC1base rootC1 wsC1base rfl (by decide)

